import Mathlib

/-!
Shallow embedding of the AWS install-config validation logic of
`pkg/asset/installconfig/aws/validation.go` (openshift installer fork).

Go maps are embedded as association lists whose list order stands for the
(unspecified) iteration order of the map; where a property depends only on
the key set, theorems carry a `Nodup`-keys hypothesis matching the Go map
invariant.  Remote lookups performed through `Metadata` (private/public
subnets, availability zones, instance types, VPC id) and through the AWS
SDK (`GetHostedZone`, record paging, partition tables, RHCOS stream
metadata) are passed in as explicit parameters carrying the data the Go
code receives from them.  Nil-pointer dereferences are embedded by
returning `none` (a Go panic) from an `Option`-valued function.
-/

namespace AWSValidation

/-- One element of a `field.Path`: either a named child or a list index. -/
inductive PathElem where
  | child (s : String)
  | index (i : Nat)
deriving DecidableEq, Repr

/-- A `field.Path` is a sequence of path elements. -/
abbrev FieldPath := List PathElem

/-- The `BadValue` carried by a `field.Error`: Go stores an `interface{}`;
the validators in scope store either a single string (a subnet/instance id),
a list of strings (the declared subnet list, the pool zones), or nothing
(`field.InternalError`, `field.Required`). -/
inductive DiagValue where
  | str (s : String)
  | strList (l : List String)
  | noValue
deriving DecidableEq, Repr

/-- A diagnostic, mirroring `field.Error` (type, field path, bad value,
detail message). -/
structure Diag where
  kind : String
  path : FieldPath
  value : DiagValue
  detail : String
deriving DecidableEq, Repr

/-- `field.Invalid(path, value, detail)`. -/
def mkInvalid (path : FieldPath) (value : DiagValue) (detail : String) : Diag :=
  ⟨"Invalid", path, value, detail⟩

/-- `field.InternalError(path, err)`. -/
def mkInternal (path : FieldPath) (detail : String) : Diag :=
  ⟨"InternalError", path, DiagValue.noValue, detail⟩

/-- `field.Required(path, detail)`. -/
def mkRequired (path : FieldPath) (detail : String) : Diag :=
  ⟨"Required", path, DiagValue.noValue, detail⟩

/-- Go `strings.HasSuffix s suffix` (byte-wise; on valid UTF-8 this agrees
with character-wise suffix). -/
def goHasSuffix (s suffix : String) : Bool :=
  suffix.data.isSuffixOf s.data

/-- Go `fmt.Sprintf("%s", xs)` for a `[]string`: `[a b c]`. -/
def goFmtStrList (l : List String) : String :=
  "[" ++ String.intercalate " " l ++ "]"

/-! ### IPv4 / CIDR parsing, mirroring Go `net.ParseCIDR` for IPv4 -/

/-- Go `dtoi`: consume a maximal run of leading decimal digits.  Returns
the value and the rest; `none` when the input does not start with a digit.
(Go's overflow cutoff only matters for values far above the 0..255 / 0..32
bounds checked by every caller, so both reject such inputs alike.) -/
def dtoiAux : List Char → Nat → Nat → (Nat × Nat × List Char)
  | [], acc, cnt => (acc, cnt, [])
  | c :: rest, acc, cnt =>
    if c.isDigit then dtoiAux rest (acc * 10 + (c.toNat - '0'.toNat)) (cnt + 1)
    else (acc, cnt, c :: rest)

/-- Digits not consumed ⇒ failure, as in Go's `dtoi` `ok` flag. -/
def dtoi (l : List Char) : Option (Nat × List Char) :=
  match dtoiAux l 0 0 with
  | (_, 0, _) => none
  | (n, _ + 1, rest) => some (n, rest)

/-- One field of a dotted quad: Go `parseIPv4` rejects values above 255 and
multi-digit fields with a leading zero. -/
def parseV4Field (l : List Char) : Option (Nat × List Char) := do
  let (n, rest) ← dtoi l
  if n > 255 then none
  else if l.length - rest.length > 1 ∧ l.head? = some '0' then none
  else some (n, rest)

/-- Go `parseIPv4`: four dot-separated fields, no trailing characters.
Returns the address as a natural number below `2^32`. -/
def parseIPv4 (l : List Char) : Option Nat := do
  let (a, r1) ← parseV4Field l
  match r1 with
  | '.' :: r1' => do
    let (b, r2) ← parseV4Field r1'
    match r2 with
    | '.' :: r2' => do
      let (c, r3) ← parseV4Field r2'
      match r3 with
      | '.' :: r3' => do
        let (d, r4) ← parseV4Field r3'
        if r4 = [] then some (((a * 256 + b) * 256 + c) * 256 + d) else none
      | _ => none
    | _ => none
  | _ => none

/-- Clear the low `32 - p` bits: Go `IP.Mask` with `CIDRMask(p, 32)`. -/
def maskIp (p : Nat) (x : Nat) : Nat :=
  x / 2 ^ (32 - p) * 2 ^ (32 - p)

/-- A parsed IPv4 network (`net.IPNet` as stored in a
`types.MachineNetworkEntry`): the stored base address and the prefix
length. -/
structure IPNet where
  base : Nat
  prefixLen : Nat
deriving DecidableEq, Repr

/-- Go `IPNet.Contains ip`: mask the argument and compare with the stored
base address. -/
def ipNetContains (n : IPNet) (ip : Nat) : Bool :=
  maskIp n.prefixLen ip = n.base

/-- Split at the first `/`, as Go `ParseCIDR` does with `byteIndex`. -/
def splitFirstSlash : List Char → Option (List Char × List Char)
  | [] => none
  | c :: rest =>
    if c = '/' then some ([], rest)
    else (splitFirstSlash rest).map (fun p => (c :: p.1, p.2))

/-- The prefix part of a CIDR: Go runs `dtoi` and demands the whole string
be consumed and the value be at most 32 (for IPv4). -/
def parsePrefixLen (l : List Char) : Option Nat := do
  let (n, rest) ← dtoi l
  if rest = [] ∧ n ≤ 32 then some n else none

/-- Go `net.ParseCIDR` restricted to IPv4 (the AWS subnet and machine
network CIDRs in scope are IPv4).  Returns the *unmasked* address written
in the CIDR (Go's first return value) together with the masked network
(Go's second return value). -/
def parseCIDR (s : String) : Option (Nat × IPNet) := do
  let (addr, mask) ← splitFirstSlash s.data
  let ip ← parseIPv4 addr
  let p ← parsePrefixLen mask
  some (ip, ⟨maskIp p ip, p⟩)

/-- `err.Error()` of the `*net.ParseError` produced by `ParseCIDR`. -/
def parseCIDRErrMsg (s : String) : String :=
  "invalid CIDR address: " ++ s

/-- Render an IPv4 address as a dotted quad, as Go's `IP.String` does for
the value interpolated into the out-of-range message. -/
def ipToString (x : Nat) : String :=
  toString (x / 2 ^ 24 % 256) ++ "." ++ toString (x / 2 ^ 16 % 256) ++ "." ++
    toString (x / 2 ^ 8 % 256) ++ "." ++ toString (x % 256)

/-! ### Subnet topology validation (`validateSubnets` and helpers) -/

/-- The fields of the `Subnet` record that `validateSubnets` reads. -/
structure Subnet where
  zone : String
  cidr : String
deriving DecidableEq, Repr

/-- A Go `map[string]Subnet`, embedded as an association list whose order
stands for the map's (unspecified) iteration order.  Go maps have distinct
keys; theorems that need this carry a `Nodup` hypothesis on the keys. -/
abbrev SubnetMap := List (String × Subnet)

/-- `_, ok := m[k]` for a Go map. -/
def mapHasKey (m : List (String × α)) (k : String) : Bool :=
  m.any (fun p => p.1 = k)

/-- `m[k]` for a Go `map[string]Subnet` (zero value when absent). -/
def mapGetSubnet (m : SubnetMap) (k : String) : Subnet :=
  (m.lookup k).getD ⟨"", ""⟩

/-- `map[string]int`, used for the declared-index maps. -/
abbrev IdxMap := List (String × Nat)

/-- `m[k] = v` on a Go map: overwrite the binding if present, else add. -/
def assocSet (m : IdxMap) (k : String) (v : Nat) : IdxMap :=
  if m.any (fun p => p.1 = k) then m.map (fun p => if p.1 = k then (k, v) else p)
  else m ++ [(k, v)]

/-- `for idx, id := range subnets { if _, ok := live[id]; ok { m[id] = idx } }`:
the index map from declared subnet ids (in declared-list order) to their
positions, restricted to ids present in the live map. -/
def buildIdx (declared : List String) (live : SubnetMap) : IdxMap :=
  declared.enum.foldl
    (fun acc p => if mapHasKey live p.2 then assocSet acc p.2 p.1 else acc) []

/-- `m[k]` for a Go `map[string]int` (zero value 0 when absent). -/
def idxGet (m : IdxMap) (k : String) : Nat :=
  (m.lookup k).getD 0

/-- `validateMachineNetworksContainIP`: no diagnostic when some declared
machine network contains the address, else one out-of-range diagnostic. -/
def validateMachineNetworksContainIP (fp : FieldPath) (networks : List IPNet)
    (subnetName : String) (ip : Nat) : List Diag :=
  if networks.any (fun n => ipNetContains n ip) then []
  else [mkInvalid fp (DiagValue.str subnetName)
    ("subnet's CIDR range start " ++ ipToString ip ++
      " is outside of the specified machine networks")]

/-- `validateSubnetCIDR`: for each live subnet (in map iteration order),
parse its CIDR; report a parse failure, else check the parsed address (the
first return value of `ParseCIDR`, i.e. the address as written) against
the machine networks. -/
def validateSubnetCIDR (fldPath : FieldPath) (subnets : SubnetMap)
    (idxMap : IdxMap) (networks : List IPNet) : List Diag :=
  subnets.flatMap fun p =>
    let fp := fldPath ++ [PathElem.index (idxGet idxMap p.1)]
    match parseCIDR p.2.cidr with
    | none => [mkInvalid fp (DiagValue.str p.1) (parseCIDRErrMsg p.2.cidr)]
    | some r => validateMachineNetworksContainIP fp networks p.1 r.1

/-- The comparison used by `sort.Strings`: lexicographic on the character
sequences (Go compares bytes; on valid UTF-8 the two orders agree).  This
coincides with `≤` on `String` (theorem `strDataLe_iff` below) but is
stated on the character lists so that it evaluates by kernel reduction. -/
def strDataLe (a b : String) : Prop := a.data ≤ b.data

instance : DecidableRel strDataLe :=
  fun a b => inferInstanceAs (Decidable (a.data ≤ b.data))

instance : IsTotal String strDataLe := ⟨fun a b => le_total a.data b.data⟩

instance : IsTrans String strDataLe := ⟨fun _ _ _ h1 h2 => le_trans h1 h2⟩

instance : IsAntisymm String strDataLe :=
  ⟨fun _ _ h1 h2 => String.ext (le_antisymm h1 h2)⟩

/-- `sort.Strings` (lexicographic). -/
def sortStrings (l : List String) : List String :=
  List.insertionSort strDataLe l

/-- The loop body of `validateDuplicateSubnetZones`: walk the sorted ids,
remembering which subnet first claimed each zone. -/
def dupZonesGo (fldPath : FieldPath) (subnets : SubnetMap) (idxMap : IdxMap)
    (typ : String) : List String → List (String × String) → List Diag
  | [], _ => []
  | id :: rest, zones =>
    let subnet := mapGetSubnet subnets id
    match zones.lookup subnet.zone with
    | some conflicting =>
      mkInvalid (fldPath ++ [PathElem.index (idxGet idxMap id)]) (DiagValue.str id)
          (typ ++ " subnet " ++ conflicting ++ " is also in zone " ++ subnet.zone)
        :: dupZonesGo fldPath subnets idxMap typ rest zones
    | none => dupZonesGo fldPath subnets idxMap typ rest (zones ++ [(subnet.zone, id)])

/-- `validateDuplicateSubnetZones`: ids are processed in sorted order; a
subnet whose zone was already claimed by an earlier (sorted-order) subnet
of the same tier is reported. -/
def validateDuplicateSubnetZones (fldPath : FieldPath) (subnets : SubnetMap)
    (idxMap : IdxMap) (typ : String) : List Diag :=
  dupZonesGo fldPath subnets idxMap typ (sortStrings (subnets.map Prod.fst)) []

/-- `sets.String` built by inserting every subnet's zone, then `.List()`:
the sorted list of distinct zones. -/
def zonesOfList (subnets : SubnetMap) : List String :=
  sortStrings (subnets.map (fun p => p.2.zone)).dedup

/-- `super.IsSuperset(sub)` on `sets.String`. -/
def ssSuperset (super sub : List String) : Bool :=
  sub.all (fun z => super.contains z)

/-- `a.Difference(b).List()` where `a` is already the sorted distinct list:
filtering preserves sortedness, so this is the sorted member list of the
difference set. -/
def ssDiff (a b : List String) : List String :=
  a.filter (fun z => !(b.contains z))

/-- `types.PublishingStrategy`. -/
inductive PublishingStrategy where
  | external
  | internal
deriving DecidableEq, Repr

/-- The zone-coverage step of `validateSubnets` (its final lines): under
the external publishing strategy the public zones must cover the private
zones; otherwise one diagnostic naming the missing zones. -/
def subnetsZoneCoverage (fldPath : FieldPath) (publish : PublishingStrategy)
    (priv pub : SubnetMap) (subnets : List String) : List Diag :=
  let privZones := zonesOfList priv
  let pubZones := zonesOfList pub
  if publish = PublishingStrategy.external then
    if ssSuperset pubZones privZones then []
    else [mkInvalid fldPath (DiagValue.strList subnets)
      ("No public subnet provided for zones " ++ goFmtStrList (ssDiff privZones pubZones))]
  else []

/-- `validateSubnets`.  The results of `meta.PrivateSubnets` and
`meta.PublicSubnets` are passed in as `Except` values (the data or the
error the remote lookup produced); a lookup error aborts with the errors
collected so far plus the lookup error, exactly as the early returns do. -/
def validateSubnets (fldPath : FieldPath) (privRes pubRes : Except String SubnetMap)
    (subnets : List String) (networks : List IPNet) (publish : PublishingStrategy) :
    List Diag :=
  match privRes with
  | Except.error e => [mkInvalid fldPath (DiagValue.strList subnets) e]
  | Except.ok priv =>
    let privIdx := buildIdx subnets priv
    let errs1 := if priv.length = 0 then
      [mkInvalid fldPath (DiagValue.strList subnets) "No private subnets found"] else []
    match pubRes with
    | Except.error e => errs1 ++ [mkInvalid fldPath (DiagValue.strList subnets) e]
    | Except.ok pub =>
      let pubIdx := buildIdx subnets pub
      errs1 ++ validateSubnetCIDR fldPath priv privIdx networks
            ++ validateSubnetCIDR fldPath pub pubIdx networks
            ++ validateDuplicateSubnetZones fldPath priv privIdx "private"
            ++ validateDuplicateSubnetZones fldPath pub pubIdx "public"
            ++ subnetsZoneCoverage fldPath publish priv pub subnets

/-! ### Machine pool validation (`validateMachinePool`) -/

/-- The fields of the EC2 instance type descriptor that
`validateMachinePool` reads (int64 in Go). -/
structure InstanceTypeInfo where
  defaultVCpus : Int
  memInMiB : Int
deriving DecidableEq, Repr

/-- `resourceRequirements`. -/
structure ResourceRequirements where
  minimumVCpus : Int
  minimumMemory : Int
deriving DecidableEq, Repr

/-- `controlPlaneReq`. -/
def controlPlaneReq : ResourceRequirements := ⟨4, 16384⟩

/-- `computeReq`. -/
def computeReq : ResourceRequirements := ⟨2, 8192⟩

/-- The fields of `awstypes.MachinePool` that `validateMachinePool` reads. -/
structure AWSMachinePool where
  zones : List String
  instanceType : String
deriving DecidableEq, Repr

/-- The remote lookups `validateMachinePool` performs through `Metadata`,
passed in as the data (or error) each lookup produces. -/
structure MetaLookups where
  privateSubnets : Except String SubnetMap
  availabilityZones : Except String (List String)
  instanceTypes : Except String (List (String × InstanceTypeInfo))
deriving Repr

/-- The declared-zones step of `validateMachinePool`.  `Except.error`
carries the immediate-return error list produced when the metadata lookup
fails; `Except.ok` carries the diagnostics appended by the step. -/
def machinePoolZonesStep (meta : MetaLookups) (fldPath : FieldPath)
    (platformSubnets : List String) (pool : AWSMachinePool) :
    Except (List Diag) (List Diag) :=
  if pool.zones.length > 0 then
    match (if platformSubnets.length > 0 then
        meta.privateSubnets.map (fun l => l.map fun p => p.2.zone)
      else meta.availabilityZones) with
    | Except.error e => Except.error [mkInternal fldPath e]
    | Except.ok available =>
      let diff := (sortStrings pool.zones.dedup).filter (fun z => !(available.contains z))
      if diff.length > 0 then
        Except.ok [mkInvalid (fldPath ++ [PathElem.child "zones"])
          (DiagValue.strList pool.zones)
          ("No subnets provided for zones " ++ goFmtStrList diff)]
      else Except.ok []
  else Except.ok []

/-- The instance-type step of `validateMachinePool`: absence from the
catalog is one diagnostic; presence triggers the vCPU floor and the memory
floor independently. -/
def machinePoolInstanceTypeStep (meta : MetaLookups) (fldPath : FieldPath)
    (pool : AWSMachinePool) (req : ResourceRequirements) :
    Except (List Diag) (List Diag) :=
  if pool.instanceType ≠ "" then
    match meta.instanceTypes with
    | Except.error e => Except.error [mkInternal fldPath e]
    | Except.ok its =>
      match its.lookup pool.instanceType with
      | some typeMeta =>
        Except.ok
          ((if typeMeta.defaultVCpus < req.minimumVCpus then
              [mkInvalid (fldPath ++ [PathElem.child "type"]) (DiagValue.str pool.instanceType)
                ("instance type does not meet minimum resource requirements of " ++
                  toString req.minimumVCpus ++ " vCPUs")]
            else []) ++
          (if typeMeta.memInMiB < req.minimumMemory then
              [mkInvalid (fldPath ++ [PathElem.child "type"]) (DiagValue.str pool.instanceType)
                ("instance type does not meet minimum resource requirements of " ++
                  toString req.minimumMemory ++ " MiB Memory")]
            else []))
      | none =>
        Except.ok [mkInvalid (fldPath ++ [PathElem.child "type"]) (DiagValue.str pool.instanceType)
          ("instance type " ++ pool.instanceType ++ " not found")]
  else Except.ok []

/-- `validateMachinePool`: the zones step, then the instance-type step;
a failed metadata lookup returns immediately with the errors collected so
far plus the internal error. -/
def validateMachinePool (meta : MetaLookups) (fldPath : FieldPath)
    (platformSubnets : List String) (pool : AWSMachinePool)
    (req : ResourceRequirements) : List Diag :=
  match machinePoolZonesStep meta fldPath platformSubnets pool with
  | Except.error errs => errs
  | Except.ok zdiags =>
    match machinePoolInstanceTypeStep meta fldPath pool req with
    | Except.error errs => zdiags ++ errs
    | Except.ok idiags => zdiags ++ idiags

/-! ### AMI validation (`validateAMI`) -/

/-- The fields of a compute `types.MachinePool` that `validateAMI` reads:
`Replicas *int64` and, when the AWS platform block is present, its
`AMIID`. -/
structure ComputePool where
  replicas : Option Int
  awsAMIID : Option String
deriving DecidableEq, Repr

/-- The fields of the control-plane pool that `validateAMI` reads. -/
structure ControlPlanePool where
  architecture : String
  awsAMIID : Option String
deriving DecidableEq, Repr

/-- `validateAMI`.  `amiRegions` stands for `rhcos.AMIRegions` (the regions
with a stream-metadata AMI per architecture) and `partitionOfRegion` for
the SDK's `endpoints.PartitionForRegion` (the partition id, when found).
`config.ControlPlane.Architecture` dereferences the control-plane pointer
before any nil check, so a missing control plane is a panic (`none`). -/
def validateAMI (amiRegions : String → List String)
    (partitionOfRegion : String → Option String) (region : String)
    (platformAMIID : String) (defaultMPAMIID : Option String)
    (controlPlane : Option ControlPlanePool) (computes : List ComputePool) :
    Option (List Diag) := do
  let cp ← controlPlane
  if region ∈ amiRegions cp.architecture then some []
  else if platformAMIID ≠ "" then some []
  else if (match defaultMPAMIID with | some a => decide (a ≠ "") | none => false : Bool) then some []
  else
    let cpHas : Bool := match cp.awsAMIID with
      | some a => decide (a ≠ "")
      | none => false
    let compsHave : Bool := computes.all fun c =>
      decide (c.replicas = some 0) ||
        (match c.awsAMIID with | some a => decide (a ≠ "") | none => false)
    if cpHas && compsHave then some []
    else
      let requiredDiag := mkRequired
        [PathElem.child "platform", PathElem.child "aws", PathElem.child "amiID"]
        "AMI must be provided"
      match partitionOfRegion region with
      | some p => if p = "aws" then some [] else some [requiredDiag]
      | none => some [requiredDiag]

/-! ### Pre-provision DNS validation (`ValidateForProvisioning`) -/

/-- The fields of `route53.HostedZone` that are read. -/
structure HostedZone where
  name : String
deriving DecidableEq, Repr

/-- The fields of `route53.GetHostedZoneOutput` that are read. -/
structure HostedZoneOutput where
  hostedZone : Option HostedZone
  vpcs : List String
deriving DecidableEq, Repr

/-- `getHostedZone`: the Route 53 client response is passed in (`none` when
the `GetHostedZone` call errored). -/
def getHostedZone (res : Option HostedZoneOutput) (hostedZonePath : FieldPath)
    (hostedZoneName : String) : Option HostedZoneOutput × List Diag :=
  match res with
  | none => (none, [mkInvalid hostedZonePath (DiagValue.str hostedZoneName)
      "cannot find hosted zone"])
  | some o => (some o, [])

/-- `getBaseDomain` (`GetPublicZone` result passed in, `none` on error). -/
def getBaseDomain (res : Option HostedZone) (baseDomainPath : FieldPath)
    (baseDomainName : String) : Option HostedZone × List Diag :=
  match res with
  | none => (none, [mkInvalid baseDomainPath (DiagValue.str baseDomainName)
      "cannot find base domain"])
  | some z => (some z, [])

/-- `isHostedZoneAssociatedWithVPC`: an empty VPC id returns `false` before
the output is touched; otherwise ranging over `hostedZone.VPCs` dereferences
the output pointer, a panic (`none`) when it is nil. -/
def isHostedZoneAssociatedWithVPC (hostedZone : Option HostedZoneOutput)
    (vpcID : String) : Option Bool :=
  if vpcID = "" then some false
  else match hostedZone with
  | none => none
  | some z => some (z.vpcs.contains vpcID)

/-- `validateHostedZone`: `metadata.VPC` result passed in. -/
def validateHostedZone (hostedZoneOutput : Option HostedZoneOutput)
    (vpcRes : Except String String) (hostedZonePath : FieldPath)
    (hostedZoneName : String) : Option (List Diag) :=
  match vpcRes with
  | Except.ok vpcID => do
    let assoc ← isHostedZoneAssociatedWithVPC hostedZoneOutput vpcID
    if assoc then some []
    else some [mkInvalid hostedZonePath (DiagValue.str hostedZoneName)
      "hosted zone is not associated with the VPC"]
  | Except.error _ => some [mkInvalid hostedZonePath (DiagValue.str hostedZoneName)
      "no VPC found"]

/-- `isHostedZoneDomainParentOfClusterDomain`. -/
def isHostedZoneDomainParentOfClusterDomain (zoneName dottedClusterDomain : String) :
    Bool :=
  zoneName = dottedClusterDomain || goHasSuffix dottedClusterDomain ("." ++ zoneName)

/-- Go `%q` on the plain domain strings in scope. -/
def goQuote (s : String) : String := "\"" ++ s ++ "\""

/-- `getSubDomainDNSRecords`: the record sets of the zone are passed in as
(name, type) pairs.  A record is skipped unless its name has the dotted
cluster domain as a suffix and is longer than it. -/
def getSubDomainDNSRecords (hostedZone : HostedZone)
    (records : List (String × String)) (dottedClusterDomain : String) :
    Except String (List String) :=
  if !(isHostedZoneDomainParentOfClusterDomain hostedZone.name dottedClusterDomain) then
    Except.error ("hosted zone domain " ++ goQuote hostedZone.name ++
      " is not a parent of the cluster domain " ++ goQuote dottedClusterDomain)
  else
    Except.ok (records.flatMap fun r =>
      if !(goHasSuffix r.1 dottedClusterDomain) then []
      else if r.1.data.length = dottedClusterDomain.data.length then []
      else [r.1 ++ " (" ++ r.2 ++ ")"])

/-- `validateZoneRecords`: dereferences `*hostedZone.Name` inside
`getSubDomainDNSRecords`, a panic (`none`) when the zone pointer is nil. -/
def validateZoneRecords (zone : Option HostedZone) (zoneName : String)
    (zonePath : FieldPath) (records : List (String × String))
    (dottedClusterDomain : String) : Option (List Diag) :=
  match zone with
  | none => none
  | some z =>
    match getSubDomainDNSRecords z records dottedClusterDomain with
    | Except.error e =>
      some [mkInternal zonePath
        ("could not list record sets for domain " ++ goQuote zoneName ++ ": " ++ e)]
    | Except.ok problematicRecords =>
      if problematicRecords.length > 0 then
        some [mkInvalid zonePath (DiagValue.str zoneName)
          ("the zone already has record sets for the domain of the cluster: [" ++
            String.intercalate ", " problematicRecords ++ "]")]
      else some []

/-- The configuration fields and remote results `ValidateForProvisioning`
consumes. -/
structure ProvisioningInput where
  publish : PublishingStrategy
  hostedZoneCfg : String
  baseDomain : String
  clusterDomain : String
  getHostedZoneRes : Option HostedZoneOutput
  getBaseDomainRes : Option HostedZone
  vpcRes : Except String String
  zoneRecords : List (String × String)

/-- `ValidateForProvisioning`.  The inner `zoneName :=` / `zonePath :=`
declarations in the hosted-zone and base-domain branches shadow the outer
variables, so the final `validateZoneRecords` call receives the outer
zero values (`""` and the nil path, embedded as `[]`).  `none` is a
nil-pointer panic. -/
def ValidateForProvisioning (inp : ProvisioningInput) : Option (List Diag) :=
  if inp.publish = PublishingStrategy.internal then some []
  else
    let outerZoneName : String := ""
    let outerZonePath : FieldPath := []
    if inp.hostedZoneCfg ≠ "" then do
      let zoneName := inp.hostedZoneCfg
      let zonePath : FieldPath := [PathElem.child "aws", PathElem.child "hostedZone"]
      let res := getHostedZone inp.getHostedZoneRes zonePath zoneName
      let errs1 ← validateHostedZone res.1 inp.vpcRes zonePath zoneName
      let zone ← match res.1 with
        | none => none
        | some o => some o.hostedZone
      let errs2 ← validateZoneRecords zone outerZoneName outerZonePath
        inp.zoneRecords (inp.clusterDomain ++ ".")
      some (res.2 ++ errs1 ++ errs2)
    else do
      let zoneName := inp.baseDomain
      let zonePath : FieldPath := [PathElem.child "baseDomain"]
      let res := getBaseDomain inp.getBaseDomainRes zonePath zoneName
      let errs2 ← validateZoneRecords res.1 outerZoneName outerZonePath
        inp.zoneRecords (inp.clusterDomain ++ ".")
      some (res.2 ++ errs2)

/-! ### Spec-side comparison definition for the DNS record check -/

/-- Definition following the spec's words for the pre-provision conflict
check: a record name is a *strict sub-domain* of the cluster's
fully-qualified dotted domain when it extends it by at least one more
label, i.e. it is `w ++ "." ++ dottedClusterDomain` for some nonempty
`w`. -/
def specStrictSubDomain (name dottedClusterDomain : String) : Bool :=
  goHasSuffix name ("." ++ dottedClusterDomain) &&
    decide (name.data.length > ("." ++ dottedClusterDomain).data.length)

/-! ### Helper definitions used only to state theorems -/

/-- A subnet CIDR passes `validateSubnetCIDR` without a diagnostic: it
parses, and the parsed (as-written) address lies inside some declared
machine network. -/
def cidrOk (networks : List IPNet) (c : String) : Bool :=
  match parseCIDR c with
  | some r => networks.any (fun e => ipNetContains e r.1)
  | none => false

/-- The diagnostics of a `validateMachinePool` run addressed to the pool's
`type` field. -/
def typeDiagsOf (fld : FieldPath) (out : List Diag) : List Diag :=
  out.filter (fun d => decide (d.path = fld ++ [PathElem.child "type"]))

/-- The out-of-machine-network diagnostic for a subnet. -/
def outsideDiag (fld : FieldPath) (idxMap : IdxMap) (id : String) (ip : Nat) : Diag :=
  mkInvalid (fld ++ [PathElem.index (idxGet idxMap id)]) (DiagValue.str id)
    ("subnet's CIDR range start " ++ ipToString ip ++
      " is outside of the specified machine networks")

/-- The CIDR-parse-failure diagnostic for a subnet. -/
def parseDiag (fld : FieldPath) (idxMap : IdxMap) (id : String) (c : String) : Diag :=
  mkInvalid (fld ++ [PathElem.index (idxGet idxMap id)]) (DiagValue.str id)
    (parseCIDRErrMsg c)

end AWSValidation

namespace AWSValidation

/-! ### General helper lemmas -/

/-- The sort comparison coincides with `≤` on `String`. -/
theorem strDataLe_iff (a b : String) : strDataLe a b ↔ a ≤ b := by
  rw [String.le_iff_toList_le]
  exact Iff.rfl

theorem lookup_append_of_none {β : Type} (k : String) (l₁ l₂ : List (String × β))
    (h : l₁.lookup k = none) : (l₁ ++ l₂).lookup k = l₂.lookup k := by
  induction l₁ with
  | nil => simp
  | cons p t ih =>
    obtain ⟨pk, pv⟩ := p
    by_cases hk : k = pk
    · subst hk; simp [List.lookup] at h
    · have hb : (k == pk) = false := beq_eq_false_iff_ne.mpr hk
      simp only [List.cons_append, List.lookup, hb] at h ⊢
      exact ih h

theorem lookup_mem {β : Type} {k : String} {v : β} {l : List (String × β)}
    (h : l.lookup k = some v) : (k, v) ∈ l := by
  induction l with
  | nil => simp [List.lookup] at h
  | cons p t ih =>
    obtain ⟨pk, pv⟩ := p
    by_cases hk : k = pk
    · subst hk
      simp only [List.lookup, beq_self_eq_true] at h
      simp only [Option.some.injEq] at h
      subst h; exact List.mem_cons_self _ _
    · have hb : (k == pk) = false := beq_eq_false_iff_ne.mpr hk
      simp only [List.lookup, hb] at h
      exact List.mem_cons_of_mem _ (ih h)

theorem lookup_eq_none_iff {β : Type} (k : String) (l : List (String × β)) :
    l.lookup k = none ↔ k ∉ l.map Prod.fst := by
  induction l with
  | nil => simp
  | cons p t ih =>
    obtain ⟨pk, pv⟩ := p
    by_cases hk : k = pk
    · subst hk; simp [List.lookup]
    · have hb : (k == pk) = false := beq_eq_false_iff_ne.mpr hk
      simp [List.lookup, hb, ih, hk]

theorem lookup_self {β : Type} {l : List (String × β)}
    (hnd : (l.map Prod.fst).Nodup) {k : String} {v : β} (h : (k, v) ∈ l) :
    l.lookup k = some v := by
  induction l with
  | nil => simp at h
  | cons p t ih =>
    obtain ⟨pk, pv⟩ := p
    simp only [List.map_cons, List.nodup_cons] at hnd
    rcases List.mem_cons.mp h with heq | hmem
    · obtain ⟨hk, hv⟩ := Prod.mk.injEq .. ▸ heq
      subst hk; subst hv
      simp [List.lookup]
    · by_cases hk : k = pk
      · subst hk
        exact absurd (List.mem_map.mpr ⟨_, hmem, rfl⟩) hnd.1
      · have hb : (k == pk) = false := beq_eq_false_iff_ne.mpr hk
        simp only [List.lookup, hb]
        exact ih hnd.2 hmem

theorem lookup_perm_eq {β : Type} {l₁ l₂ : List (String × β)} (p : l₁.Perm l₂)
    (hnd : (l₁.map Prod.fst).Nodup) (k : String) : l₁.lookup k = l₂.lookup k := by
  have hnd₂ : (l₂.map Prod.fst).Nodup := ((p.map Prod.fst).nodup hnd)
  cases h₁ : l₁.lookup k with
  | some v => exact (lookup_self hnd₂ (p.mem_iff.mp (lookup_mem h₁))).symm
  | none =>
    cases h₂ : l₂.lookup k with
    | none => rfl
    | some v =>
      have := lookup_self hnd (p.mem_iff.mpr (lookup_mem h₂))
      rw [h₁] at this
      exact absurd this (by simp)

theorem any_fst_perm {β : Type} {l₁ l₂ : List (String × β)} (p : l₁.Perm l₂)
    (k : String) : l₁.any (fun q => q.1 = k) = l₂.any (fun q => q.1 = k) := by
  rw [Bool.eq_iff_iff]
  simp only [List.any_eq_true]
  exact ⟨fun ⟨x, hx, hq⟩ => ⟨x, p.mem_iff.mp hx, hq⟩,
    fun ⟨x, hx, hq⟩ => ⟨x, p.mem_iff.mpr hx, hq⟩⟩

/-- `goHasSuffix` plus equal character length forces string equality. -/
theorem eq_of_goHasSuffix_of_length (s t : String) (h : goHasSuffix s t = true)
    (hl : s.data.length = t.data.length) : s = t := by
  have hsfx : t.data <:+ s.data := by
    simpa [goHasSuffix, List.isSuffixOf_iff_suffix] using h
  exact (String.ext (hsfx.eq_of_length hl.symm)).symm

end AWSValidation

namespace AWSValidation

/-! ### C5: hosted-zone lookup failure in `ValidateForProvisioning` -/

/-- C5.  The claim says that when the hosted zone is resolved by explicit
id and `getHostedZone` fails, `ValidateForProvisioning` still completes
normally and returns the collected diagnostics, the failure surfacing as a
diagnostic.  The code does surface the lookup failure as a diagnostic
(first conjunct), but it then dereferences the nil lookup result — inside
`isHostedZoneAssociatedWithVPC` (ranging over `hostedZoneOutput.VPCs`) and
at `zone = zoneOutput.HostedZone` — so the run panics instead of
completing (second conjunct: the embedded run is `none`, a nil-pointer
panic). -/
theorem C5_lookup_failure_panics :
    (getHostedZone none [PathElem.child "aws", PathElem.child "hostedZone"] "Z1").2 =
      [mkInvalid [PathElem.child "aws", PathElem.child "hostedZone"]
        (DiagValue.str "Z1") "cannot find hosted zone"] ∧
    ValidateForProvisioning
      { publish := PublishingStrategy.external
        hostedZoneCfg := "Z1"
        baseDomain := "example.com"
        clusterDomain := "cluster.example.com"
        getHostedZoneRes := none
        getBaseDomainRes := none
        vpcRes := Except.ok "vpc-1"
        zoneRecords := [] } = none := by
  constructor
  · rfl
  · rfl

/-! ### C6: which DNS records the pre-provision conflict check flags -/

/-- C6 counterexample.  The claim says a record is flagged iff its name is
a strict sub-domain of the dotted cluster domain.  The code only checks
that the dotted cluster domain is a string suffix of the record name, so
with cluster domain `cluster.example.com` the record
`badcluster.example.com.` — which is not a sub-domain of the cluster
domain (its parent is `example.com`) — is flagged. -/
theorem C6_counterexample :
    getSubDomainDNSRecords ⟨"example.com."⟩ [("badcluster.example.com.", "A")]
        "cluster.example.com." = Except.ok ["badcluster.example.com. (A)"] ∧
    specStrictSubDomain "badcluster.example.com." "cluster.example.com." = false := by
  constructor
  · rfl
  · rfl

/-- C6 as amended: for a hosted zone whose domain is a parent of the
cluster domain, a record set is flagged iff the dotted cluster domain is a
*proper string suffix* of the record's name (equal names — e.g. the zone's
own NS/SOA records — are never flagged, and names not ending in the dotted
cluster domain are never flagged, but names extending it without a label
boundary, such as `badcluster.example.com.`, are flagged). -/
theorem C6_flagged_iff_proper_suffix (zone : HostedZone)
    (records : List (String × String)) (dotted : String)
    (hparent : isHostedZoneDomainParentOfClusterDomain zone.name dotted = true) :
    getSubDomainDNSRecords zone records dotted =
      Except.ok (((records.filter fun r =>
          goHasSuffix r.1 dotted && decide (r.1 ≠ dotted)).map
        fun r => r.1 ++ " (" ++ r.2 ++ ")")) := by
  unfold getSubDomainDNSRecords
  rw [hparent]
  simp only [Bool.not_true, Bool.false_eq_true, if_false, Except.ok.injEq]
  induction records with
  | nil => rfl
  | cons r rs ih =>
    rw [List.flatMap_cons, List.filter_cons]
    cases hsfx : goHasSuffix r.1 dotted with
    | false =>
      simp only [Bool.not_false, Bool.false_and]
      rw [if_pos trivial, if_neg (by simp), List.nil_append]
      exact ih
    | true =>
      simp only [Bool.not_true, Bool.true_and]
      by_cases hlen : r.1.data.length = dotted.data.length
      · have heq : r.1 = dotted := eq_of_goHasSuffix_of_length _ _ hsfx hlen
        rw [if_neg (by simp), if_pos hlen,
          if_neg (show ¬(decide (r.1 ≠ dotted) = true) by simp [heq]),
          List.nil_append]
        exact ih
      · have hne : ¬(r.1 = dotted) := by
          rintro rfl; exact hlen rfl
        rw [if_neg (by simp), if_neg hlen,
          if_pos (show decide (r.1 ≠ dotted) = true by simp [hne]),
          List.map_cons, List.singleton_append, ih]

/-- C6 witness: the amended statement at the spec's own example zone, where
only `api.cluster.example.com.` is flagged. -/
theorem C6_flagged_iff_proper_suffix_witness :
    getSubDomainDNSRecords ⟨"example.com."⟩
        [("api.cluster.example.com.", "A"), ("example.com.", "NS")]
        "cluster.example.com." = Except.ok ["api.cluster.example.com. (A)"] :=
  C6_flagged_iff_proper_suffix ⟨"example.com."⟩
    [("api.cluster.example.com.", "A"), ("example.com.", "NS")]
    "cluster.example.com." (by rfl)

end AWSValidation

namespace AWSValidation

/-! ### Diagnostic-shape lemmas for the subnet validators -/

theorem validateMachineNetworksContainIP_value {fp : FieldPath} {nets : List IPNet}
    {name : String} {ip : Nat} {d : Diag}
    (h : d ∈ validateMachineNetworksContainIP fp nets name ip) :
    d.value = DiagValue.str name := by
  unfold validateMachineNetworksContainIP at h
  split at h
  · simp at h
  · simp only [List.mem_singleton] at h
    subst h
    rfl

theorem validateSubnetCIDR_value_mem {fld : FieldPath} {l : SubnetMap} {idx : IdxMap}
    {nets : List IPNet} {d : Diag} (h : d ∈ validateSubnetCIDR fld l idx nets) :
    ∃ p ∈ l, d.value = DiagValue.str p.1 := by
  unfold validateSubnetCIDR at h
  obtain ⟨p, hp, hd⟩ := List.mem_flatMap.mp h
  refine ⟨p, hp, ?_⟩
  cases hpc : parseCIDR p.2.cidr with
  | none =>
    rw [hpc] at hd
    simp only [List.mem_singleton] at hd
    subst hd
    rfl
  | some r =>
    rw [hpc] at hd
    exact validateMachineNetworksContainIP_value hd

theorem dupZonesGo_value_mem {fld : FieldPath} {s : SubnetMap} {idx : IdxMap}
    {typ : String} : ∀ {keys : List String} {zones : List (String × String)} {d : Diag},
    d ∈ dupZonesGo fld s idx typ keys zones → ∃ id ∈ keys, d.value = DiagValue.str id := by
  intro keys
  induction keys with
  | nil => intro zones d h; simp [dupZonesGo] at h
  | cons id rest ih =>
    intro zones d h
    simp only [dupZonesGo] at h
    cases hlk : List.lookup (mapGetSubnet s id).zone zones with
    | some c =>
      rw [hlk] at h
      rcases List.mem_cons.mp h with rfl | hmem
      · exact ⟨id, List.mem_cons_self _ _, rfl⟩
      · obtain ⟨i, hi, hv⟩ := ih hmem
        exact ⟨i, List.mem_cons_of_mem _ hi, hv⟩
    | none =>
      rw [hlk] at h
      obtain ⟨i, hi, hv⟩ := ih h
      exact ⟨i, List.mem_cons_of_mem _ hi, hv⟩

theorem validateDuplicateSubnetZones_value_mem {fld : FieldPath} {l : SubnetMap}
    {idx : IdxMap} {typ : String} {d : Diag}
    (h : d ∈ validateDuplicateSubnetZones fld l idx typ) :
    ∃ p ∈ l, d.value = DiagValue.str p.1 := by
  obtain ⟨id, hid, hv⟩ := dupZonesGo_value_mem h
  have hid' : id ∈ l.map Prod.fst :=
    (List.perm_insertionSort strDataLe (l.map Prod.fst)).mem_iff.mp hid
  obtain ⟨p, hp, rfl⟩ := List.mem_map.mp hid'
  exact ⟨p, hp, hv⟩

theorem subnetsZoneCoverage_value {fld : FieldPath} {publish : PublishingStrategy}
    {priv pub : SubnetMap} {subnets : List String} {d : Diag}
    (h : d ∈ subnetsZoneCoverage fld publish priv pub subnets) :
    d.value = DiagValue.strList subnets := by
  unfold subnetsZoneCoverage at h
  dsimp only at h
  split at h
  · split at h
    · simp at h
    · simp only [List.mem_singleton] at h
      subst h
      rfl
  · simp at h

theorem mem_unique_of_nodup_keys {β : Type} {l : List (String × β)}
    (hnd : (l.map Prod.fst).Nodup) {k : String} {v w : β}
    (h1 : (k, v) ∈ l) (h2 : (k, w) ∈ l) : v = w := by
  have e1 := lookup_self hnd h1
  have e2 := lookup_self hnd h2
  rw [e1] at e2
  exact Option.some.injEq .. ▸ e2

/-! ### C2: declared ids in neither live tier -/

/-- C2 counterexample.  The claim says a declared subnet id present in
neither live tier gets a diagnostic from `validateSubnets`.  At this input
the declared id `subnet-x` is in neither live map and the run returns no
diagnostics at all. -/
theorem C2_counterexample :
    "subnet-x" ∈ ["subnet-x"] ∧
    "subnet-x" ∉ ([("subnet-a", (⟨"za", "10.0.1.0/24"⟩ : Subnet))].map Prod.fst) ∧
    "subnet-x" ∉ (([] : SubnetMap).map Prod.fst) ∧
    validateSubnets [] (Except.ok [("subnet-a", ⟨"za", "10.0.1.0/24"⟩)])
      (Except.ok []) ["subnet-x"] [⟨167772160, 16⟩] PublishingStrategy.internal = [] := by
  exact ⟨by decide, by decide, by decide, by decide⟩

/-- C2 as amended: when both live lookups succeed, a declared id present in
neither the live private map nor the live public map is never the subject
of any diagnostic `validateSubnets` returns (every per-subnet diagnostic is
about a live subnet id; such an id surfaces only through a failed lookup,
which is outside this function's diagnostics about individual ids). -/
theorem C2_unmatched_id_never_named (fld : FieldPath) (priv pub : SubnetMap)
    (subnets : List String) (networks : List IPNet) (publish : PublishingStrategy)
    (id : String) (hpriv : id ∉ priv.map Prod.fst) (hpub : id ∉ pub.map Prod.fst) :
    ∀ d ∈ validateSubnets fld (Except.ok priv) (Except.ok pub) subnets networks publish,
      d.value ≠ DiagValue.str id := by
  intro d hd hval
  unfold validateSubnets at hd
  simp only [List.mem_append] at hd
  rcases hd with ((((h1 | h2) | h3) | h4) | h5) | h6
  · split at h1
    · simp only [List.mem_singleton] at h1
      subst h1
      simp [mkInvalid] at hval
    · simp at h1
  · obtain ⟨p, hp, hv⟩ := validateSubnetCIDR_value_mem h2
    rw [hval] at hv
    have : p.1 = id := by simpa using hv.symm
    exact hpriv (List.mem_map.mpr ⟨p, hp, this⟩)
  · obtain ⟨p, hp, hv⟩ := validateSubnetCIDR_value_mem h3
    rw [hval] at hv
    have : p.1 = id := by simpa using hv.symm
    exact hpub (List.mem_map.mpr ⟨p, hp, this⟩)
  · obtain ⟨p, hp, hv⟩ := validateDuplicateSubnetZones_value_mem h4
    rw [hval] at hv
    have : p.1 = id := by simpa using hv.symm
    exact hpriv (List.mem_map.mpr ⟨p, hp, this⟩)
  · obtain ⟨p, hp, hv⟩ := validateDuplicateSubnetZones_value_mem h5
    rw [hval] at hv
    have : p.1 = id := by simpa using hv.symm
    exact hpub (List.mem_map.mpr ⟨p, hp, this⟩)
  · have := subnetsZoneCoverage_value h6
    rw [hval] at this
    simp at this

/-- C2 witness: a run whose single diagnostic (an unparsable CIDR on the
live subnet `subnet-b`) is, by the amended statement, not about the
declared-but-unmatched id `subnet-x`. -/
theorem C2_unmatched_id_never_named_witness :
    (mkInvalid [PathElem.index 1] (DiagValue.str "subnet-b")
      (parseCIDRErrMsg "bad1")).value ≠ DiagValue.str "subnet-x" :=
  C2_unmatched_id_never_named [] [("subnet-b", ⟨"za", "bad1"⟩)] []
    ["subnet-x", "subnet-b"] [] PublishingStrategy.internal "subnet-x"
    (by decide) (by decide)
    (mkInvalid [PathElem.index 1] (DiagValue.str "subnet-b") (parseCIDRErrMsg "bad1"))
    (by decide)

end AWSValidation

namespace AWSValidation

/-! ### C9: per-subnet CIDR checking -/

/-- C9 counterexample.  The claim says a parsed subnet CIDR draws a
diagnostic iff its *network address* lies inside no declared machine
network.  `validateSubnetCIDR` discards `ParseCIDR`'s second return value
(the masked network) and checks the first (the address as written): for
subnet CIDR `10.2.3.4/8` the network address is `10.0.0.0` (167772160),
which lies inside no declared machine network here, yet no diagnostic is
produced because the as-written address `10.2.3.4` (167904004) lies inside
`10.2.3.0/24`. -/
theorem C9_counterexample :
    parseCIDR "10.2.3.4/8" = some (167904004, ⟨167772160, 8⟩) ∧
    (∀ n ∈ [(⟨167904000, 24⟩ : IPNet)], ipNetContains n 167772160 = false) ∧
    validateSubnetCIDR [] [("s1", ⟨"za", "10.2.3.4/8"⟩)] []
      [⟨167904000, 24⟩] = [] := by
  exact ⟨by decide, by decide, by decide⟩

/-- C9 as amended: for each subnet of the map (under the Go-map invariant
of distinct keys), an unparsable CIDR always contributes its parse-failure
diagnostic, and for a parsable CIDR the out-of-range diagnostic is present
iff the *as-written start address* of the CIDR (the first return value of
`ParseCIDR`, not the masked network address) lies inside none of the
declared machine networks. -/
theorem C9_cidr_diag_iff_start_outside (fld : FieldPath) (subnets : SubnetMap)
    (idx : IdxMap) (networks : List IPNet) (id : String) (v : Subnet)
    (hmem : (id, v) ∈ subnets) (hnd : (subnets.map Prod.fst).Nodup) :
    (parseCIDR v.cidr = none →
      parseDiag fld idx id v.cidr ∈ validateSubnetCIDR fld subnets idx networks) ∧
    (∀ ip net, parseCIDR v.cidr = some (ip, net) →
      (outsideDiag fld idx id ip ∈ validateSubnetCIDR fld subnets idx networks ↔
        ∀ n ∈ networks, ipNetContains n ip = false)) := by
  constructor
  · intro hpc
    unfold validateSubnetCIDR
    refine List.mem_flatMap.mpr ⟨(id, v), hmem, ?_⟩
    rw [hpc]
    simp [parseDiag]
  · intro ip net hpc
    constructor
    · intro hout
      unfold validateSubnetCIDR at hout
      obtain ⟨p, hp, hd⟩ := List.mem_flatMap.mp hout
      have hval : (outsideDiag fld idx id ip).value = DiagValue.str id := rfl
      have hpid : p.1 = id := by
        cases hpc' : parseCIDR p.2.cidr with
        | none =>
          rw [hpc'] at hd
          simp only [List.mem_singleton] at hd
          have := congrArg Diag.value hd
          rw [hval] at this
          simpa [mkInvalid] using this.symm
        | some r =>
          rw [hpc'] at hd
          have := validateMachineNetworksContainIP_value hd
          rw [hval] at this
          simpa using this.symm
      have hpv : p.2 = v := by
        have hp' : (id, p.2) ∈ subnets := by
          rw [← hpid]
          exact hp
        exact mem_unique_of_nodup_keys hnd hp' hmem
      have hpeq : p = (id, v) := by
        obtain ⟨pk, pv⟩ := p
        simp only at hpid hpv
        rw [hpid, hpv]
      rw [hpeq] at hd
      rw [hpc] at hd
      dsimp only at hd
      unfold validateMachineNetworksContainIP at hd
      split at hd
      · simp at hd
      · rename_i hany
        intro n hn
        by_contra hcon
        have hb : ipNetContains n ip = true := by
          cases hb : ipNetContains n ip
          · exact absurd hb hcon
          · rfl
        exact hany (List.any_eq_true.mpr ⟨n, hn, hb⟩)
    · intro hall
      unfold validateSubnetCIDR
      refine List.mem_flatMap.mpr ⟨(id, v), hmem, ?_⟩
      rw [hpc]
      dsimp only
      unfold validateMachineNetworksContainIP
      rw [if_neg]
      · simp [outsideDiag]
      · intro hany
        obtain ⟨n, hn, hb⟩ := List.any_eq_true.mp hany
        rw [hall n hn] at hb
        exact Bool.false_ne_true hb

/-- C9 witness: the amended statement at a concrete map with one in-range,
one out-of-range and one unparsable CIDR. -/
theorem C9_cidr_diag_iff_start_outside_witness :
    outsideDiag [] [] "s2" 3232235777 ∈
      validateSubnetCIDR [] [("s1", ⟨"za", "10.0.1.0/24"⟩), ("s2", ⟨"zb", "192.168.1.1/24"⟩)]
        [] [⟨167772160, 16⟩] := by
  have h := (C9_cidr_diag_iff_start_outside [] 
    [("s1", ⟨"za", "10.0.1.0/24"⟩), ("s2", ⟨"zb", "192.168.1.1/24"⟩)] [] [⟨167772160, 16⟩]
    "s2" ⟨"zb", "192.168.1.1/24"⟩ (by decide) (by decide)).2 3232235777 ⟨3232235776, 24⟩
    (by decide)
  exact h.mpr (by decide)

end AWSValidation

namespace AWSValidation

/-! ### C4: exactly one duplicate-zone diagnostic per conflicting pair -/

/-- C4.  A tier holding exactly two subnets that share a zone yields
exactly one duplicate-zone diagnostic.  Processing is over sorted ids, so
the lexicographically smaller id claims the zone और the larger id is
reported, its diagnostic naming the smaller id in the message — and the
output is identical when the two map entries are presented in the opposite
order. -/
theorem C4_duplicate_zone_pair (fld : FieldPath) (idxMap : IdxMap)
    (typ i1 i2 z c1 c2 : String) (hne : i1 ≠ i2) :
    validateDuplicateSubnetZones fld [(i1, ⟨z, c1⟩), (i2, ⟨z, c2⟩)] idxMap typ =
      [mkInvalid (fld ++ [PathElem.index (idxGet idxMap (max i1 i2))])
        (DiagValue.str (max i1 i2))
        (typ ++ " subnet " ++ (min i1 i2) ++ " is also in zone " ++ z)] ∧
    validateDuplicateSubnetZones fld [(i2, ⟨z, c2⟩), (i1, ⟨z, c1⟩)] idxMap typ =
      validateDuplicateSubnetZones fld [(i1, ⟨z, c1⟩), (i2, ⟨z, c2⟩)] idxMap typ := by
  have hne' : i2 ≠ i1 := Ne.symm hne
  have hb12 : (i1 == i2) = false := beq_eq_false_iff_ne.mpr hne
  have hb21 : (i2 == i1) = false := beq_eq_false_iff_ne.mpr hne'
  have g1 : mapGetSubnet [(i1, ⟨z, c1⟩), (i2, ⟨z, c2⟩)] i1 = ⟨z, c1⟩ := by
    simp [mapGetSubnet, List.lookup]
  have g2 : mapGetSubnet [(i1, ⟨z, c1⟩), (i2, ⟨z, c2⟩)] i2 = ⟨z, c2⟩ := by
    simp [mapGetSubnet, List.lookup, hb21]
  have g1' : mapGetSubnet [(i2, ⟨z, c2⟩), (i1, ⟨z, c1⟩)] i1 = ⟨z, c1⟩ := by
    simp [mapGetSubnet, List.lookup, hb12]
  have g2' : mapGetSubnet [(i2, ⟨z, c2⟩), (i1, ⟨z, c1⟩)] i2 = ⟨z, c2⟩ := by
    simp [mapGetSubnet, List.lookup]
  by_cases hle : i1 ≤ i2
  · have hled : strDataLe i1 i2 := (strDataLe_iff i1 i2).mpr hle
    have hnled : ¬ strDataLe i2 i1 :=
      fun h => hne (le_antisymm hle ((strDataLe_iff i2 i1).mp h))
    have hmax : max i1 i2 = i2 := max_eq_right hle
    have hmin : min i1 i2 = i1 := min_eq_left hle
    have hsort1 : sortStrings [i1, i2] = [i1, i2] := by
      simp [sortStrings, List.insertionSort, List.orderedInsert, hled]
    have hsort2 : sortStrings [i2, i1] = [i1, i2] := by
      simp [sortStrings, List.insertionSort, List.orderedInsert, hnled]
    rw [hmax, hmin]
    constructor
    · unfold validateDuplicateSubnetZones
      simp only [List.map_cons, List.map_nil, hsort1, dupZonesGo, g1, g2]
      simp [List.lookup]
    · unfold validateDuplicateSubnetZones
      simp only [List.map_cons, List.map_nil, hsort1, hsort2, dupZonesGo,
        g1, g2, g1', g2']
  · have hle' : i2 ≤ i1 := le_of_not_le hle
    have hled' : strDataLe i2 i1 := (strDataLe_iff i2 i1).mpr hle'
    have hnled' : ¬ strDataLe i1 i2 := fun h => hle ((strDataLe_iff i1 i2).mp h)
    have hmax : max i1 i2 = i1 := max_eq_left hle'
    have hmin : min i1 i2 = i2 := min_eq_right hle'
    have hsort1 : sortStrings [i1, i2] = [i2, i1] := by
      simp [sortStrings, List.insertionSort, List.orderedInsert, hnled']
    have hsort2 : sortStrings [i2, i1] = [i2, i1] := by
      simp [sortStrings, List.insertionSort, List.orderedInsert, hled']
    rw [hmax, hmin]
    constructor
    · unfold validateDuplicateSubnetZones
      simp only [List.map_cons, List.map_nil, hsort1, dupZonesGo, g1, g2]
      simp [List.lookup]
    · unfold validateDuplicateSubnetZones
      simp only [List.map_cons, List.map_nil, hsort1, hsort2, dupZonesGo,
        g1, g2, g1', g2']

/-- C4 witness: two private subnets sharing zone `us-east-1a`; the larger
id `subnet-b` is reported against the smaller id `subnet-a`, in both
presentation orders. -/
theorem C4_duplicate_zone_pair_witness :
    validateDuplicateSubnetZones [] [("subnet-a", ⟨"us-east-1a", "10.0.1.0/24"⟩),
        ("subnet-b", ⟨"us-east-1a", "10.0.2.0/24"⟩)] [("subnet-a", 0), ("subnet-b", 1)]
      "private" =
      [mkInvalid [PathElem.index 1] (DiagValue.str "subnet-b")
        "private subnet subnet-a is also in zone us-east-1a"] ∧
    validateDuplicateSubnetZones [] [("subnet-b", ⟨"us-east-1a", "10.0.2.0/24"⟩),
        ("subnet-a", ⟨"us-east-1a", "10.0.1.0/24"⟩)] [("subnet-a", 0), ("subnet-b", 1)]
      "private" =
      validateDuplicateSubnetZones [] [("subnet-a", ⟨"us-east-1a", "10.0.1.0/24"⟩),
        ("subnet-b", ⟨"us-east-1a", "10.0.2.0/24"⟩)] [("subnet-a", 0), ("subnet-b", 1)]
      "private" := by
  have h := C4_duplicate_zone_pair [] [("subnet-a", 0), ("subnet-b", 1)] "private"
    "subnet-a" "subnet-b" "us-east-1a" "10.0.1.0/24" "10.0.2.0/24" (by decide)
  refine ⟨?_, h.2⟩
  have hm : max "subnet-a" "subnet-b" = "subnet-b" :=
    max_eq_right (by rw [String.le_iff_toList_le]; decide)
  have hn : min "subnet-a" "subnet-b" = "subnet-a" :=
    min_eq_left (by rw [String.le_iff_toList_le]; decide)
  rw [h.1, hm, hn]
  rfl

end AWSValidation

namespace AWSValidation

/-! ### C7: external publishing zone-coverage gap -/

/-- C7.  With the external publishing strategy, private zones `{a,b,c}`
and public zones `{a,b}`, the zone-coverage step yields exactly the one
diagnostic naming exactly the missing zone `c`, and the full
`validateSubnets` output contains that diagnostic exactly once. -/
theorem C7_missing_zone (fld : FieldPath) (privL pubL : SubnetMap)
    (subnets : List String) (networks : List IPNet)
    (hpriv : zonesOfList privL = ["a", "b", "c"])
    (hpub : zonesOfList pubL = ["a", "b"]) :
    subnetsZoneCoverage fld PublishingStrategy.external privL pubL subnets =
      [mkInvalid fld (DiagValue.strList subnets)
        "No public subnet provided for zones [c]"] ∧
    (validateSubnets fld (Except.ok privL) (Except.ok pubL) subnets networks
        PublishingStrategy.external).count
      (mkInvalid fld (DiagValue.strList subnets)
        "No public subnet provided for zones [c]") = 1 := by
  have h1 : ssSuperset ["a", "b"] ["a", "b", "c"] = false := by decide
  have h2 : ssDiff ["a", "b", "c"] ["a", "b"] = ["c"] := by decide
  have h3 : "No public subnet provided for zones " ++ goFmtStrList ["c"] =
      "No public subnet provided for zones [c]" := by decide
  have hcov : subnetsZoneCoverage fld PublishingStrategy.external privL pubL subnets =
      [mkInvalid fld (DiagValue.strList subnets)
        "No public subnet provided for zones [c]"] := by
    unfold subnetsZoneCoverage
    dsimp only
    rw [hpriv, hpub, if_pos rfl, if_neg (by rw [h1]; exact Bool.false_ne_true), h2, h3]
  refine ⟨hcov, ?_⟩
  have hlen : ¬ (privL.length = 0) := by
    intro h
    rw [List.length_eq_zero.mp h] at hpriv
    simp [zonesOfList, sortStrings] at hpriv
  unfold validateSubnets
  dsimp only
  rw [if_neg hlen]
  simp only [List.count_append, List.nil_append]
  have hc0 : ∀ (l : SubnetMap) (idx : IdxMap),
      (validateSubnetCIDR fld l idx networks).count
        (mkInvalid fld (DiagValue.strList subnets)
          "No public subnet provided for zones [c]") = 0 := by
    intro l idx
    refine List.count_eq_zero_of_not_mem ?_
    intro hmem
    obtain ⟨p, _, hv⟩ := validateSubnetCIDR_value_mem hmem
    simp [mkInvalid] at hv
  have hd0 : ∀ (l : SubnetMap) (idx : IdxMap) (typ : String),
      (validateDuplicateSubnetZones fld l idx typ).count
        (mkInvalid fld (DiagValue.strList subnets)
          "No public subnet provided for zones [c]") = 0 := by
    intro l idx typ
    refine List.count_eq_zero_of_not_mem ?_
    intro hmem
    obtain ⟨p, _, hv⟩ := validateDuplicateSubnetZones_value_mem hmem
    simp [mkInvalid] at hv
  rw [hc0, hc0, hd0, hd0, hcov]
  simp

/-- C7 witness: three private subnets in zones a, b, c, two public subnets
in zones a, b. -/
theorem C7_missing_zone_witness :
    subnetsZoneCoverage [] PublishingStrategy.external
      [("s1", ⟨"a", "10.0.1.0/24"⟩), ("s2", ⟨"b", "10.0.2.0/24"⟩), ("s3", ⟨"c", "10.0.3.0/24"⟩)]
      [("p1", ⟨"a", "10.0.4.0/24"⟩), ("p2", ⟨"b", "10.0.5.0/24"⟩)]
      ["s1", "s2", "s3", "p1", "p2"] =
      [mkInvalid [] (DiagValue.strList ["s1", "s2", "s3", "p1", "p2"])
        "No public subnet provided for zones [c]"] ∧
    (validateSubnets [] (Except.ok [("s1", ⟨"a", "10.0.1.0/24"⟩), ("s2", ⟨"b", "10.0.2.0/24"⟩),
        ("s3", ⟨"c", "10.0.3.0/24"⟩)])
      (Except.ok [("p1", ⟨"a", "10.0.4.0/24"⟩), ("p2", ⟨"b", "10.0.5.0/24"⟩)])
      ["s1", "s2", "s3", "p1", "p2"] [] PublishingStrategy.external).count
      (mkInvalid [] (DiagValue.strList ["s1", "s2", "s3", "p1", "p2"])
        "No public subnet provided for zones [c]") = 1 :=
  C7_missing_zone [] _ _ _ [] (by decide) (by decide)

end AWSValidation

namespace AWSValidation

/-! ### C10: zero-replica compute pools and the AMI requirement -/

/-- C10.  With no stream-metadata AMI for the region, no platform-level or
default-machine-platform AMI, and the region outside the standard `aws`
partition, `validateAMI` still reports nothing when the control plane
specifies an AMI and every compute pool either specifies an AMI or has an
explicit replica count of zero. -/
theorem C10_zero_replica_pools_exempt (amiRegions : String → List String)
    (partitionOfRegion : String → Option String) (region : String)
    (defaultMPAMIID : Option String) (cp : ControlPlanePool)
    (computes : List ComputePool)
    (hstream : region ∉ amiRegions cp.architecture)
    (hdefault : defaultMPAMIID = none ∨ defaultMPAMIID = some "")
    (_hpart : ∀ p, partitionOfRegion region = some p → p ≠ "aws")
    (hcp : ∃ a, cp.awsAMIID = some a ∧ a ≠ "")
    (hcomp : ∀ c ∈ computes, c.replicas = some 0 ∨
      ∃ a, c.awsAMIID = some a ∧ a ≠ "") :
    validateAMI amiRegions partitionOfRegion region "" defaultMPAMIID (some cp)
      computes = some [] := by
  obtain ⟨ca, hca, hcane⟩ := hcp
  unfold validateAMI
  rw [Option.bind_eq_bind, Option.some_bind]
  rw [if_neg hstream, if_neg (by simp)]
  have hd : ∀ (o : Option String), o = none ∨ o = some "" →
      (match o with | some a => decide (a ≠ "") | none => false) = false := by
    rintro o (rfl | rfl) <;> rfl
  rw [if_neg (by rw [hd defaultMPAMIID hdefault]; exact Bool.false_ne_true)]
  dsimp only
  have hcph : (match cp.awsAMIID with
      | some a => decide (a ≠ "") | none => false) = true := by
    rw [hca]
    simp [hcane]
  have hall : (computes.all fun c => decide (c.replicas = some 0) ||
      (match c.awsAMIID with | some a => decide (a ≠ "") | none => false)) = true := by
    rw [List.all_eq_true]
    intro c hc
    rcases hcomp c hc with h0 | ⟨a, ha, hane⟩
    · simp [h0]
    · rw [ha]
      simp [hane]
  rw [hcph, hall]
  rfl

/-- C10 witness: region `cn-north-1` (partition `aws-cn`), no platform,
default or stream AMI; the control plane has an AMI and the two compute
pools have, respectively, an AMI and zero replicas. -/
theorem C10_zero_replica_pools_exempt_witness :
    validateAMI (fun _ => []) (fun _ => some "aws-cn") "cn-north-1" "" none
      (some ⟨"amd64", some "ami-cp"⟩)
      [⟨some 3, some "ami-worker"⟩, ⟨some 0, none⟩] = some [] :=
  C10_zero_replica_pools_exempt (fun _ => []) (fun _ => some "aws-cn") "cn-north-1"
    none ⟨"amd64", some "ami-cp"⟩ [⟨some 3, some "ami-worker"⟩, ⟨some 0, none⟩]
    (by simp) (Or.inl rfl) (by intro p hp; injection hp with h; rw [← h]; decide)
    ⟨"ami-cp", rfl, by decide⟩
    (by
      intro c hc
      simp only [List.mem_cons, List.not_mem_nil, or_false] at hc
      rcases hc with rfl | rfl
      · right
        exact ⟨"ami-worker", rfl, by decide⟩
      · left
        rfl)

end AWSValidation

namespace AWSValidation

/-! ### C8: instance-type floor diagnostics -/

theorem machinePoolZonesStep_ok_paths {meta : MetaLookups} {fld : FieldPath}
    {platformSubnets : List String} {pool : AWSMachinePool} {zd : List Diag}
    (hz : machinePoolZonesStep meta fld platformSubnets pool = Except.ok zd) :
    ∀ d ∈ zd, d.path ≠ fld ++ [PathElem.child "type"] := by
  unfold machinePoolZonesStep at hz
  split at hz
  · split at hz
    · exact absurd hz (by simp)
    · dsimp only at hz
      split at hz
      · injection hz with h
        subst h
        intro d hd
        simp only [List.mem_singleton] at hd
        subst hd
        intro hpath
        have := List.append_cancel_left hpath
        simp at this
      · injection hz with h
        subst h
        simp
  · injection hz with h
    subst h
    simp

/-- C8.  When the zones step succeeds and the instance-type catalog lookup
succeeds: a declared type present in the catalog with vCPUs strictly below
the role minimum *and* memory strictly below the role minimum yields
exactly the two `type`-field diagnostics (one per dimension), while a
declared type absent from the catalog yields exactly the one not-found
`type`-field diagnostic. -/
theorem C8_instance_type_diags (meta : MetaLookups) (fld : FieldPath)
    (platformSubnets : List String) (pool : AWSMachinePool)
    (req : ResourceRequirements) (zd : List Diag)
    (hz : machinePoolZonesStep meta fld platformSubnets pool = Except.ok zd)
    (its : List (String × InstanceTypeInfo))
    (hits : meta.instanceTypes = Except.ok its)
    (hne : pool.instanceType ≠ "") :
    (∀ info, its.lookup pool.instanceType = some info →
      info.defaultVCpus < req.minimumVCpus → info.memInMiB < req.minimumMemory →
      typeDiagsOf fld (validateMachinePool meta fld platformSubnets pool req) =
        [mkInvalid (fld ++ [PathElem.child "type"]) (DiagValue.str pool.instanceType)
          ("instance type does not meet minimum resource requirements of " ++
            toString req.minimumVCpus ++ " vCPUs"),
         mkInvalid (fld ++ [PathElem.child "type"]) (DiagValue.str pool.instanceType)
          ("instance type does not meet minimum resource requirements of " ++
            toString req.minimumMemory ++ " MiB Memory")]) ∧
    (its.lookup pool.instanceType = none →
      typeDiagsOf fld (validateMachinePool meta fld platformSubnets pool req) =
        [mkInvalid (fld ++ [PathElem.child "type"]) (DiagValue.str pool.instanceType)
          ("instance type " ++ pool.instanceType ++ " not found")]) := by
  have hzfilter : zd.filter
      (fun d => decide (d.path = fld ++ [PathElem.child "type"])) = [] := by
    rw [List.filter_eq_nil_iff]
    intro d hd
    simpa using machinePoolZonesStep_ok_paths hz d hd
  have hvmp : validateMachinePool meta fld platformSubnets pool req =
      zd ++ (match machinePoolInstanceTypeStep meta fld pool req with
        | Except.error errs => errs
        | Except.ok idiags => idiags) := by
    unfold validateMachinePool
    rw [hz]
    cases machinePoolInstanceTypeStep meta fld pool req <;> rfl
  constructor
  · intro info hlk h1 h2
    have hstep : machinePoolInstanceTypeStep meta fld pool req = Except.ok
        [mkInvalid (fld ++ [PathElem.child "type"]) (DiagValue.str pool.instanceType)
          ("instance type does not meet minimum resource requirements of " ++
            toString req.minimumVCpus ++ " vCPUs"),
         mkInvalid (fld ++ [PathElem.child "type"]) (DiagValue.str pool.instanceType)
          ("instance type does not meet minimum resource requirements of " ++
            toString req.minimumMemory ++ " MiB Memory")] := by
      unfold machinePoolInstanceTypeStep
      rw [if_pos hne, hits]
      dsimp only
      rw [hlk]
      dsimp only
      rw [if_pos h1, if_pos h2]
      rfl
    rw [typeDiagsOf, hvmp, hstep, List.filter_append, hzfilter, List.nil_append]
    simp [mkInvalid]
  · intro hlk
    have hstep : machinePoolInstanceTypeStep meta fld pool req = Except.ok
        [mkInvalid (fld ++ [PathElem.child "type"]) (DiagValue.str pool.instanceType)
          ("instance type " ++ pool.instanceType ++ " not found")] := by
      unfold machinePoolInstanceTypeStep
      rw [if_pos hne, hits]
      dsimp only
      rw [hlk]
    rw [typeDiagsOf, hvmp, hstep, List.filter_append, hzfilter, List.nil_append]
    simp [mkInvalid]

/-- C8 witness: a control-plane pool declaring `m5.large` (2 vCPUs,
8192 MiB in the catalog) against the control-plane minimum (4 vCPUs,
16384 MiB) gets exactly two `type` diagnostics. -/
theorem C8_instance_type_diags_witness :
    typeDiagsOf [] (validateMachinePool ⟨Except.ok [], Except.ok [],
        Except.ok [("m5.large", ⟨2, 8192⟩)]⟩ [] [] ⟨[], "m5.large"⟩ controlPlaneReq) =
      [mkInvalid [PathElem.child "type"] (DiagValue.str "m5.large")
        ("instance type does not meet minimum resource requirements of " ++
          toString controlPlaneReq.minimumVCpus ++ " vCPUs"),
       mkInvalid [PathElem.child "type"] (DiagValue.str "m5.large")
        ("instance type does not meet minimum resource requirements of " ++
          toString controlPlaneReq.minimumMemory ++ " MiB Memory")] := by
  have h := (C8_instance_type_diags ⟨Except.ok [], Except.ok [],
      Except.ok [("m5.large", ⟨2, 8192⟩)]⟩ [] [] ⟨[], "m5.large"⟩ controlPlaneReq
      [] rfl [("m5.large", ⟨2, 8192⟩)] rfl (by decide)).1 ⟨2, 8192⟩ rfl
      (by decide) (by decide)
  simpa using h

end AWSValidation

namespace AWSValidation

/-! ### C1: when the topology validator is silent -/

theorem validateSubnetCIDR_eq_nil {fld : FieldPath} {l : SubnetMap} {idx : IdxMap}
    {networks : List IPNet} (h : ∀ p ∈ l, cidrOk networks p.2.cidr = true) :
    validateSubnetCIDR fld l idx networks = [] := by
  unfold validateSubnetCIDR
  rw [List.flatMap_eq_nil_iff]
  intro p hp
  have hc := h p hp
  unfold cidrOk at hc
  cases hpc : parseCIDR p.2.cidr with
  | none =>
    rw [hpc] at hc
    simp at hc
  | some r =>
    rw [hpc] at hc
    dsimp only at hc
    dsimp only
    unfold validateMachineNetworksContainIP
    rw [if_pos hc]

theorem dupZonesGo_eq_nil {fld : FieldPath} {s : SubnetMap} {idx : IdxMap}
    {typ : String} : ∀ (keys : List String) (zones : List (String × String)),
    (keys.map (fun id => (mapGetSubnet s id).zone)).Nodup →
    (∀ id ∈ keys, List.lookup (mapGetSubnet s id).zone zones = none) →
    dupZonesGo fld s idx typ keys zones = [] := by
  intro keys
  induction keys with
  | nil => intro zones _ _; rfl
  | cons id rest ih =>
    intro zones hnd hnone
    rw [List.map_cons, List.nodup_cons] at hnd
    simp only [dupZonesGo]
    rw [hnone id (List.mem_cons_self _ _)]
    apply ih
    · exact hnd.2
    · intro id' hid'
      rw [lookup_append_of_none _ _ _ (hnone id' (List.mem_cons_of_mem _ hid'))]
      have hzne : (mapGetSubnet s id').zone ≠ (mapGetSubnet s id).zone := by
        intro he
        exact hnd.1 (List.mem_map.mpr ⟨id', hid', he⟩)
      simp [List.lookup, beq_eq_false_iff_ne.mpr hzne]

theorem validateDuplicateSubnetZones_eq_nil {fld : FieldPath} {l : SubnetMap}
    {idx : IdxMap} {typ : String} (hkeys : (l.map Prod.fst).Nodup)
    (hzones : (l.map (fun p => p.2.zone)).Nodup) :
    validateDuplicateSubnetZones fld l idx typ = [] := by
  unfold validateDuplicateSubnetZones
  apply dupZonesGo_eq_nil
  · have heq : (l.map Prod.fst).map (fun id => (mapGetSubnet l id).zone) =
        l.map (fun p => p.2.zone) := by
      rw [List.map_map]
      apply List.map_congr_left
      intro p hp
      have hp' : (p.1, p.2) ∈ l := by rwa [Prod.mk.eta]
      simp [Function.comp, mapGetSubnet, lookup_self hkeys hp']
    have hperm := (List.perm_insertionSort strDataLe (l.map Prod.fst)).map
      (fun id => (mapGetSubnet l id).zone)
    rw [heq] at hperm
    exact hperm.symm.nodup hzones
  · intro id _
    rfl

theorem subnetsZoneCoverage_eq_nil {fld : FieldPath} {publish : PublishingStrategy}
    {priv pub : SubnetMap} {subnets : List String}
    (h : publish = PublishingStrategy.external →
      ∀ z ∈ zonesOfList priv, z ∈ zonesOfList pub) :
    subnetsZoneCoverage fld publish priv pub subnets = [] := by
  unfold subnetsZoneCoverage
  dsimp only
  cases publish with
  | internal => rw [if_neg (by simp)]
  | external =>
    rw [if_pos rfl, if_pos ?hsup]
    case hsup =>
      rw [ssSuperset, List.all_eq_true]
      intro z hz
      simpa using h rfl z hz

/-- C1 counterexample.  The claim's hypotheses hold — at least one private
subnet, every CIDR parsable and inside a machine network, zones distinct
within each tier — yet under the external publishing strategy (the claim
quantifies over *every* publishing strategy) `validateSubnets` is not
silent: the private zone `za` has no public counterpart. -/
theorem C1_counterexample :
    (([("s1", (⟨"za", "10.0.1.0/24"⟩ : Subnet))] : SubnetMap) ≠ []) ∧
    (∀ p ∈ ([("s1", (⟨"za", "10.0.1.0/24"⟩ : Subnet))] : SubnetMap),
      cidrOk [⟨167772160, 16⟩] p.2.cidr = true) ∧
    (([("s1", (⟨"za", "10.0.1.0/24"⟩ : Subnet))] : SubnetMap).map
      (fun p => p.2.zone)).Nodup ∧
    ((([] : SubnetMap)).map (fun p => p.2.zone)).Nodup ∧
    validateSubnets [] (Except.ok [("s1", ⟨"za", "10.0.1.0/24"⟩)]) (Except.ok [])
      ["s1"] [⟨167772160, 16⟩] PublishingStrategy.external ≠ [] := by
  exact ⟨by decide, by decide, by decide, by decide, by decide⟩

/-- C1 as amended: under the claim's hypotheses *and* the zone-coverage
condition the external strategy checks (every private zone covered by some
public subnet — trivially true for the internal strategy), `validateSubnets`
returns no diagnostics.  The Go-map key invariant (distinct ids per tier)
is made explicit. -/
theorem C1_valid_subnets_no_diags (fld : FieldPath) (privL pubL : SubnetMap)
    (subnets : List String) (networks : List IPNet) (publish : PublishingStrategy)
    (hne : privL ≠ [])
    (hkpriv : (privL.map Prod.fst).Nodup) (hkpub : (pubL.map Prod.fst).Nodup)
    (hcpriv : ∀ p ∈ privL, cidrOk networks p.2.cidr = true)
    (hcpub : ∀ p ∈ pubL, cidrOk networks p.2.cidr = true)
    (hzpriv : (privL.map (fun p => p.2.zone)).Nodup)
    (hzpub : (pubL.map (fun p => p.2.zone)).Nodup)
    (hcov : publish = PublishingStrategy.external →
      ∀ z ∈ zonesOfList privL, z ∈ zonesOfList pubL) :
    validateSubnets fld (Except.ok privL) (Except.ok pubL) subnets networks
      publish = [] := by
  unfold validateSubnets
  dsimp only
  rw [if_neg (fun h => hne (List.length_eq_zero.mp h))]
  rw [validateSubnetCIDR_eq_nil hcpriv, validateSubnetCIDR_eq_nil hcpub,
    validateDuplicateSubnetZones_eq_nil hkpriv hzpriv,
    validateDuplicateSubnetZones_eq_nil hkpub hzpub,
    subnetsZoneCoverage_eq_nil hcov]
  rfl

/-- C1 witness: one private and one public subnet in zone `a`, CIDRs inside
the machine network, external publishing. -/
theorem C1_valid_subnets_no_diags_witness :
    validateSubnets [] (Except.ok [("s1", ⟨"a", "10.0.1.0/24"⟩)])
      (Except.ok [("p1", ⟨"a", "10.0.2.0/24"⟩)]) ["s1", "p1"]
      [⟨167772160, 16⟩] PublishingStrategy.external = [] :=
  C1_valid_subnets_no_diags [] [("s1", ⟨"a", "10.0.1.0/24"⟩)]
    [("p1", ⟨"a", "10.0.2.0/24"⟩)] ["s1", "p1"] [⟨167772160, 16⟩]
    PublishingStrategy.external (by decide) (by decide) (by decide)
    (by decide) (by decide) (by decide) (by decide) (fun _ => by decide)

end AWSValidation

namespace AWSValidation

/-! ### C3: determinism of repeated runs -/

theorem buildIdx_perm_eq {l₁ l₂ : SubnetMap} (p : l₁.Perm l₂) (declared : List String) :
    buildIdx declared l₁ = buildIdx declared l₂ := by
  unfold buildIdx
  have hk : ∀ k, mapHasKey l₁ k = mapHasKey l₂ k := fun k => any_fst_perm p k
  suffices h : ∀ (el : List (Nat × String)) (acc : IdxMap),
      el.foldl (fun acc q => if mapHasKey l₁ q.2 then assocSet acc q.2 q.1 else acc) acc =
      el.foldl (fun acc q => if mapHasKey l₂ q.2 then assocSet acc q.2 q.1 else acc) acc by
    exact h _ _
  intro el
  induction el with
  | nil => intro acc; rfl
  | cons q el ih =>
    intro acc
    rw [List.foldl_cons, List.foldl_cons, hk q.2]
    exact ih _

theorem mapGetSubnet_perm_eq {l₁ l₂ : SubnetMap} (p : l₁.Perm l₂)
    (hnd : (l₁.map Prod.fst).Nodup) (k : String) :
    mapGetSubnet l₁ k = mapGetSubnet l₂ k := by
  unfold mapGetSubnet
  rw [lookup_perm_eq p hnd k]

theorem dupZonesGo_congr {fld : FieldPath} {idx : IdxMap} {typ : String}
    {s₁ s₂ : SubnetMap} (h : ∀ k, mapGetSubnet s₁ k = mapGetSubnet s₂ k) :
    ∀ (keys : List String) (zones : List (String × String)),
    dupZonesGo fld s₁ idx typ keys zones = dupZonesGo fld s₂ idx typ keys zones := by
  intro keys
  induction keys with
  | nil => intro zones; rfl
  | cons id rest ih =>
    intro zones
    simp only [dupZonesGo, h id]
    cases hlk : List.lookup (mapGetSubnet s₂ id).zone zones with
    | some c =>
      dsimp only
      rw [ih]
    | none =>
      dsimp only
      rw [ih]

theorem validateDuplicateSubnetZones_perm_eq {fld : FieldPath} {idx : IdxMap}
    {typ : String} {l₁ l₂ : SubnetMap} (p : l₁.Perm l₂)
    (hnd : (l₁.map Prod.fst).Nodup) :
    validateDuplicateSubnetZones fld l₁ idx typ =
      validateDuplicateSubnetZones fld l₂ idx typ := by
  unfold validateDuplicateSubnetZones
  have hkeys : sortStrings (l₁.map Prod.fst) = sortStrings (l₂.map Prod.fst) :=
    List.eq_of_perm_of_sorted
      ((List.perm_insertionSort strDataLe _).trans
        ((p.map Prod.fst).trans (List.perm_insertionSort strDataLe _).symm))
      (List.sorted_insertionSort strDataLe _) (List.sorted_insertionSort strDataLe _)
  rw [hkeys]
  exact dupZonesGo_congr (fun k => mapGetSubnet_perm_eq p hnd k) _ _

theorem zonesOfList_perm_eq {l₁ l₂ : SubnetMap} (p : l₁.Perm l₂) :
    zonesOfList l₁ = zonesOfList l₂ := by
  unfold zonesOfList
  exact List.eq_of_perm_of_sorted
    ((List.perm_insertionSort strDataLe _).trans
      (((p.map _).dedup).trans (List.perm_insertionSort strDataLe _).symm))
    (List.sorted_insertionSort strDataLe _) (List.sorted_insertionSort strDataLe _)

theorem subnetsZoneCoverage_perm_eq {fld : FieldPath} {publish : PublishingStrategy}
    {subnets : List String} {priv₁ priv₂ pub₁ pub₂ : SubnetMap}
    (hp : priv₁.Perm priv₂) (hq : pub₁.Perm pub₂) :
    subnetsZoneCoverage fld publish priv₁ pub₁ subnets =
      subnetsZoneCoverage fld publish priv₂ pub₂ subnets := by
  unfold subnetsZoneCoverage
  rw [zonesOfList_perm_eq hp, zonesOfList_perm_eq hq]

theorem validateSubnetCIDR_perm {fld : FieldPath} {idx : IdxMap}
    {networks : List IPNet} {l₁ l₂ : SubnetMap} (p : l₁.Perm l₂) :
    (validateSubnetCIDR fld l₁ idx networks).Perm
      (validateSubnetCIDR fld l₂ idx networks) := by
  unfold validateSubnetCIDR
  exact p.flatMap_right _

/-- C3 counterexample.  The claim says two runs over the same configuration
and the same live inventory produce identical diagnostic lists (content and
order).  The live subnet maps are Go maps, whose iteration order is
unspecified: the two association lists below are permutations of each other
— the same map — yet `validateSubnets` emits its two CIDR-parse diagnostics
in the two different orders, because `validateSubnetCIDR` ranges over the
map without sorting (`validateDuplicateSubnetZones` does sort). -/
theorem C3_counterexample :
    (([("s1", (⟨"za", "bad1"⟩ : Subnet)), ("s2", ⟨"zb", "bad2"⟩)] : SubnetMap).Perm
      [("s2", ⟨"zb", "bad2"⟩), ("s1", ⟨"za", "bad1"⟩)]) ∧
    validateSubnets [] (Except.ok [("s1", ⟨"za", "bad1"⟩), ("s2", ⟨"zb", "bad2"⟩)])
        (Except.ok []) ["s1", "s2"] [] PublishingStrategy.internal ≠
      validateSubnets [] (Except.ok [("s2", ⟨"zb", "bad2"⟩), ("s1", ⟨"za", "bad1"⟩)])
        (Except.ok []) ["s1", "s2"] [] PublishingStrategy.internal := by
  constructor
  · exact List.Perm.swap _ _ _
  · decide

/-- C3 as amended: for unchanged configuration and unchanged live state —
the live maps of a second run being permutations (the same Go maps) of the
first run's, with the Go-map distinct-key invariant — the two diagnostic
lists are permutations of each other: the content is identical, but the
order of the CIDR diagnostics may differ between runs because
`validateSubnetCIDR` iterates the maps unsorted; only
`validateDuplicateSubnetZones` sorts. -/
theorem C3_same_content_up_to_order (fld : FieldPath) (subnets : List String)
    (networks : List IPNet) (publish : PublishingStrategy)
    (priv₁ priv₂ pub₁ pub₂ : SubnetMap)
    (hp : priv₁.Perm priv₂) (hq : pub₁.Perm pub₂)
    (hkp : (priv₁.map Prod.fst).Nodup) (hkq : (pub₁.map Prod.fst).Nodup) :
    (validateSubnets fld (Except.ok priv₁) (Except.ok pub₁) subnets networks
        publish).Perm
      (validateSubnets fld (Except.ok priv₂) (Except.ok pub₂) subnets networks
        publish) := by
  unfold validateSubnets
  dsimp only
  rw [buildIdx_perm_eq hp subnets, buildIdx_perm_eq hq subnets, hp.length_eq,
    validateDuplicateSubnetZones_perm_eq hp hkp,
    validateDuplicateSubnetZones_perm_eq hq hkq,
    subnetsZoneCoverage_perm_eq hp hq]
  exact ((((((List.Perm.refl _).append (validateSubnetCIDR_perm hp)).append
    (validateSubnetCIDR_perm hq)).append (List.Perm.refl _)).append
    (List.Perm.refl _)).append (List.Perm.refl _))

/-- C3 witness: the amended statement at the counterexample's permuted
maps. -/
theorem C3_same_content_up_to_order_witness :
    (validateSubnets [] (Except.ok [("s1", ⟨"za", "bad1"⟩), ("s2", ⟨"zb", "bad2"⟩)])
        (Except.ok []) ["s1", "s2"] [] PublishingStrategy.internal).Perm
      (validateSubnets [] (Except.ok [("s2", ⟨"zb", "bad2"⟩), ("s1", ⟨"za", "bad1"⟩)])
        (Except.ok []) ["s1", "s2"] [] PublishingStrategy.internal) :=
  C3_same_content_up_to_order [] ["s1", "s2"] [] PublishingStrategy.internal
    [("s1", ⟨"za", "bad1"⟩), ("s2", ⟨"zb", "bad2"⟩)]
    [("s2", ⟨"zb", "bad2"⟩), ("s1", ⟨"za", "bad1"⟩)] [] []
    (List.Perm.swap _ _ _) (List.Perm.refl _) (by decide) (by decide)

end AWSValidation
